import Mathlib

/-!
Verification of the S-DES (Simplified DES) implementation.

The cipher operates on 8-bit blocks with a 10-bit key.  All values are
modelled as `Nat`, with the source's explicit masks (`&&& 0x1F`, `&&& 0x0F`,
`&&& 0xFF`) carried over verbatim; each definition mirrors the corresponding
Rust function, with for-loops over constant tables rendered as folds over the
enumerated table list.
-/

namespace SDES

/-- Substitution box S0 (constant table from the source). -/
def S0 : List (List Nat) := [
  [1, 0, 3, 2],
  [3, 2, 1, 0],
  [0, 2, 1, 3],
  [3, 1, 3, 2]]

/-- Substitution box S1 (constant table from the source). -/
def S1 : List (List Nat) := [
  [0, 1, 2, 3],
  [2, 0, 1, 3],
  [3, 0, 1, 0],
  [2, 1, 0, 3]]

/-- Permutation of a 10-bit string into a 10-bit string (`p10`). -/
def p10 (key : Nat) : Nat :=
  let p10_table := [3, 5, 2, 7, 4, 10, 1, 9, 8, 6]
  p10_table.enum.foldl
    (fun result ip => result ||| (((key >>> (10 - ip.2)) &&& 1) <<< (9 - ip.1))) 0

/-- Permutation of a 10-bit string into an 8-bit string (`p8`). -/
def p8 (key : Nat) : Nat :=
  let p8_table := [6, 3, 7, 4, 8, 5, 10, 9]
  p8_table.enum.foldl
    (fun result ip => result ||| (((key >>> (10 - ip.2)) &&& 1) <<< (7 - ip.1))) 0

/-- Left circular shift of n on the LOW and HIGH 5-bit halves separately,
returning the concatenation of the shifted HIGH and LOW parts (`left_shift`). -/
def left_shift (key : Nat) (n : Nat) : Nat :=
  let left := (key >>> 5) &&& 0x1F
  let right := key &&& 0x1F
  let shifted_left := ((left <<< n) ||| (left >>> (5 - n))) &&& 0x1F
  let shifted_right := ((right <<< n) ||| (right >>> (5 - n))) &&& 0x1F
  (shifted_left <<< 5) ||| shifted_right

/-- Generate SK1 and SK2 from the cipher key (`generate_subkeys`). -/
def generate_subkeys (key : Nat) : Nat × Nat :=
  let p10_key := p10 key
  let ls1 := left_shift p10_key 1
  let ls2 := left_shift ls1 2
  let k1 := p8 ls1
  let k2 := p8 ls2
  (k1, k2)

/-- Initial permutation of an 8-bit block (`initial_permutation`). -/
def initial_permutation (input : Nat) : Nat :=
  let ip_table := [2, 6, 3, 1, 4, 8, 5, 7]
  ip_table.enum.foldl
    (fun result ip => result ||| (((input >>> (8 - ip.2)) &&& 1) <<< (7 - ip.1))) 0

/-- Inverse initial permutation of an 8-bit block (`inverse_initial_permutation`). -/
def inverse_initial_permutation (input : Nat) : Nat :=
  let ip_inv_table := [4, 1, 3, 5, 7, 2, 8, 6]
  ip_inv_table.enum.foldl
    (fun result ip => result ||| (((input >>> (8 - ip.2)) &&& 1) <<< (7 - ip.1))) 0

/-- The expansion table of `expansion_permutation` (the source's `ep_table`,
lifted to a top-level constant so its shape can be stated directly). -/
def ep_table : List Nat := [4, 1, 2, 3, 2, 3, 4, 1]

/-- Expands a 4-bit input into 8 bits to match the subkey size
(`expansion_permutation`). -/
def expansion_permutation (input : Nat) : Nat :=
  ep_table.enum.foldl
    (fun result ip => result ||| (((input >>> (4 - ip.2)) &&& 1) <<< (7 - ip.1))) 0

/-- Permutation of a 4-bit string into a 4-bit string (`p4`). -/
def p4 (input : Nat) : Nat :=
  let p4_table := [2, 4, 3, 1]
  p4_table.enum.foldl
    (fun result ip => result ||| (((input >>> (4 - ip.2)) &&& 1) <<< (3 - ip.1))) 0

/-- Lookup values from the S-boxes (`s_box_lookup`).  The row/column
computation is carried over bit-for-bit from the source, including the
`0b10000` mask. -/
def s_box_lookup (input : Nat) (sbox : List (List Nat)) : Nat :=
  let row := ((input &&& 0b10000) >>> 3) ||| (input &&& 1)
  let col := (input >>> 1) &&& 0b11
  (sbox.getD row []).getD col 0

/-- Feistel function (`f_function`). -/
def f_function (input : Nat) (subkey : Nat) : Nat :=
  let expanded := expansion_permutation input
  let xored := expanded ^^^ subkey
  let left_half := (xored >>> 4) &&& 0x0F
  let right_half := xored &&& 0x0F
  let s0_result := s_box_lookup left_half S0
  let s1_result := s_box_lookup right_half S1
  let combined := (s0_result <<< 2) ||| s1_result
  p4 combined

/-- Feistel K function (`fk`). -/
def fk (input : Nat) (subkey : Nat) : Nat :=
  let left := (input >>> 4) &&& 0x0F
  let right := input &&& 0x0F
  let f_result := f_function right subkey
  let new_left := left ^^^ f_result
  ((new_left <<< 4) ||| right) &&& 0xFF

/-- Switch HIGH and LOW 4-bit halves (`sw`). -/
def sw (input : Nat) : Nat :=
  ((input &&& 0x0F) <<< 4) ||| ((input >>> 4) &&& 0x0F)

/-- Encryption pipeline (`encrypt`). -/
def encrypt (plaintext : Nat) (k1 : Nat) (k2 : Nat) : Nat :=
  let ip := initial_permutation plaintext
  let after_fk1 := fk ip k1
  let after_sw := sw after_fk1
  let after_fk2 := fk after_sw k2
  inverse_initial_permutation after_fk2

/-- Decryption pipeline (`decrypt`): same structure, subkey order reversed. -/
def decrypt (ciphertext : Nat) (k1 : Nat) (k2 : Nat) : Nat :=
  let ip := initial_permutation ciphertext
  let after_fk1 := fk ip k2
  let after_sw := sw after_fk1
  let after_fk2 := fk after_sw k1
  inverse_initial_permutation after_fk2

/-- Spec-side description of one circular left rotation by `n` within exactly
5 bits: the bits shifted out at the top (`h / 2 ^ (5 - n)`) wrap around to the
bottom, and the rest (`h * 2 ^ n % 32`) move up. -/
def spec_rotl5 (h : Nat) (n : Nat) : Nat :=
  (h * 2 ^ n) % 32 + h / 2 ^ (5 - n)

/-- Spec-side description of the key-schedule shift: split a 10-bit value into
its high and low 5-bit halves, rotate each half circularly and independently by
`n`, and concatenate the rotated halves. -/
def spec_shift_halves (key : Nat) (n : Nat) : Nat :=
  spec_rotl5 (key / 32 % 32) n * 32 + spec_rotl5 (key % 32) n

set_option maxRecDepth 1000000

/- ### Width bounds -/

lemma and15_lt (x : Nat) : x &&& 15 < 16 :=
  Nat.lt_succ_of_le Nat.and_le_right

lemma xor16_lt {a b : Nat} (ha : a < 16) (hb : b < 16) : a ^^^ b < 16 :=
  Nat.xor_lt_two_pow (n := 4) ha hb

lemma bit_shift_lt {y : Nat} (t W : Nat) (hy : y ≤ 1) (h : t < W) :
    y <<< t < 2 ^ W := by
  calc y <<< t = y * 2 ^ t := Nat.shiftLeft_eq y t
  _ ≤ 1 * 2 ^ t := Nat.mul_le_mul_right _ hy
  _ = 2 ^ t := Nat.one_mul _
  _ < 2 ^ W := Nat.pow_lt_pow_right Nat.one_lt_two h

lemma p4_eq (x : Nat) : p4 x =
    (((0 ||| (((x >>> 2) &&& 1) <<< 3)) ||| (((x >>> 0) &&& 1) <<< 2)) |||
      (((x >>> 1) &&& 1) <<< 1)) ||| (((x >>> 3) &&& 1) <<< 0) := rfl

lemma p4_lt (x : Nat) : p4 x < 16 := by
  rw [p4_eq]
  have h16 : (16 : Nat) = 2 ^ 4 := rfl
  rw [h16]
  apply Nat.or_lt_two_pow
  apply Nat.or_lt_two_pow
  apply Nat.or_lt_two_pow
  apply Nat.or_lt_two_pow
  · decide
  all_goals exact bit_shift_lt _ 4 Nat.and_le_right (by decide)

lemma f_function_eq (x k : Nat) : f_function x k =
    p4 ((s_box_lookup (((expansion_permutation x ^^^ k) >>> 4) &&& 0x0F) S0 <<< 2) |||
      s_box_lookup ((expansion_permutation x ^^^ k) &&& 0x0F) S1) := rfl

lemma f_function_lt (x k : Nat) : f_function x k < 16 := by
  rw [f_function_eq]; exact p4_lt _

lemma fk_eq (x k : Nat) : fk x k =
    (((((x >>> 4) &&& 0x0F) ^^^ f_function (x &&& 0x0F) k) <<< 4) ||| (x &&& 0x0F))
      &&& 0xFF := rfl

lemma fk_lt (x k : Nat) : fk x k < 256 := by
  rw [fk_eq]; exact Nat.lt_succ_of_le Nat.and_le_right

/- ### Exhaustive nibble-recombination facts -/

lemma nib_low : ∀ a, a < 16 → ∀ r, r < 16 →
    (((a <<< 4) ||| r) &&& 255) &&& 15 = r := by decide

lemma nib_high : ∀ a, a < 16 → ∀ r, r < 16 →
    (((a <<< 4) ||| r) &&& 255) >>> 4 = a := by decide

lemma recompose : ∀ x, x < 256 →
    ((((x >>> 4) &&& 15) <<< 4) ||| (x &&& 15)) &&& 255 = x := by decide

lemma and15_id : ∀ y, y < 16 → y &&& 15 = y := by decide

lemma shr4_and15 : ∀ b, b < 256 → (b >>> 4) &&& 15 = b >>> 4 := by decide

/- ### The Feistel mixing step: low half fixed, involutive on 8-bit blocks -/

lemma fk_low (x k : Nat) : fk x k &&& 15 = x &&& 15 := by
  rw [fk_eq]
  exact nib_low _ (xor16_lt (and15_lt _) (f_function_lt _ _)) _ (and15_lt x)

lemma fk_high (x k : Nat) :
    fk x k >>> 4 = ((x >>> 4) &&& 15) ^^^ f_function (x &&& 15) k := by
  rw [fk_eq]
  exact nib_high _ (xor16_lt (and15_lt _) (f_function_lt _ _)) _ (and15_lt x)

lemma fk_invol (x k : Nat) (hx : x < 256) : fk (fk x k) k = x := by
  rw [fk_eq (fk x k) k, fk_high, fk_low,
    and15_id _ (xor16_lt (and15_lt _) (f_function_lt _ _)),
    Nat.xor_cancel_right]
  exact recompose x hx

/- ### Exhaustive facts about the block-level permutations -/

lemma ip_lt : ∀ x, x < 256 → initial_permutation x < 256 := by decide

lemma ipinv_lt : ∀ x, x < 256 → inverse_initial_permutation x < 256 := by decide

lemma sw_lt : ∀ x, x < 256 → sw x < 256 := by decide

lemma ipinv_ip : ∀ x, x < 256 →
    inverse_initial_permutation (initial_permutation x) = x := by decide

lemma ip_ipinv : ∀ x, x < 256 →
    initial_permutation (inverse_initial_permutation x) = x := by decide

lemma sw_sw : ∀ x, x < 256 → sw (sw x) = x := by decide

/- ### Round trips of the cipher core -/

lemma encrypt_eq (p k1 k2 : Nat) : encrypt p k1 k2 =
    inverse_initial_permutation (fk (sw (fk (initial_permutation p) k1)) k2) := rfl

lemma decrypt_eq (c k1 k2 : Nat) : decrypt c k1 k2 =
    inverse_initial_permutation (fk (sw (fk (initial_permutation c) k2)) k1) := rfl

lemma decrypt_encrypt (p k1 k2 : Nat) (hp : p < 256) :
    decrypt (encrypt p k1 k2) k1 k2 = p := by
  rw [encrypt_eq, decrypt_eq,
    ip_ipinv _ (fk_lt _ _),
    fk_invol _ k2 (sw_lt _ (fk_lt _ _)),
    sw_sw _ (fk_lt _ _),
    fk_invol _ k1 (ip_lt _ hp)]
  exact ipinv_ip _ hp

lemma encrypt_decrypt (c k1 k2 : Nat) (hc : c < 256) :
    encrypt (decrypt c k1 k2) k1 k2 = c := by
  rw [decrypt_eq, encrypt_eq,
    ip_ipinv _ (fk_lt _ _),
    fk_invol _ k1 (sw_lt _ (fk_lt _ _)),
    sw_sw _ (fk_lt _ _),
    fk_invol _ k2 (ip_lt _ hc)]
  exact ipinv_ip _ hc

lemma encrypt_lt (p k1 k2 : Nat) : encrypt p k1 k2 < 256 := by
  rw [encrypt_eq]; exact ipinv_lt _ (fk_lt _ _)

lemma decrypt_lt (c k1 k2 : Nat) : decrypt c k1 k2 < 256 := by
  rw [decrypt_eq]; exact ipinv_lt _ (fk_lt _ _)

/- ### Exhaustive facts about the key schedule -/

lemma p10_lt : ∀ key, key < 1024 → p10 key < 1024 := by decide

lemma p8_lt : ∀ key, key < 1024 → p8 key < 256 := by decide

lemma left_shift_halves : ∀ key, key < 1024 → ∀ n, n < 5 → 0 < n →
    left_shift key n < 1024 ∧
    left_shift key n >>> 5 = spec_rotl5 (key >>> 5) n ∧
    left_shift key n &&& 31 = spec_rotl5 (key &&& 31) n := by decide

lemma left_shift_spec : ∀ key, key < 1024 →
    left_shift key 1 = spec_shift_halves key 1 ∧
    left_shift key 2 = spec_shift_halves key 2 := by decide

lemma spec_shift_halves_lt : ∀ key, key < 1024 → spec_shift_halves key 1 < 1024 := by
  decide

lemma generate_subkeys_eq (key : Nat) : generate_subkeys key =
    (p8 (left_shift (p10 key) 1), p8 (left_shift (left_shift (p10 key) 1) 2)) := rfl

/- ## The claims -/

/-- Claim C1: for every 10-bit master key `K` and every 8-bit block `P`, with
`(SK1, SK2) = generate_subkeys K`, decrypting the encryption of `P` under
`(SK1, SK2)` gives back `P`. -/
theorem C1_round_trip : ∀ K, K < 1024 → ∀ P, P < 256 →
    decrypt (encrypt P (generate_subkeys K).1 (generate_subkeys K).2)
      (generate_subkeys K).1 (generate_subkeys K).2 = P :=
  fun _K _hK P hP => decrypt_encrypt P _ _ hP

/-- Witness for C1 at the repository's demonstration key and plaintext. -/
theorem C1_round_trip_witness :
    0b1010000010 < 1024 ∧ 0b11010111 < 256 ∧
    decrypt (encrypt 0b11010111 (generate_subkeys 0b1010000010).1
        (generate_subkeys 0b1010000010).2)
      (generate_subkeys 0b1010000010).1 (generate_subkeys 0b1010000010).2
      = 0b11010111 :=
  ⟨by decide, by decide,
    C1_round_trip 0b1010000010 (by decide) 0b11010111 (by decide)⟩

/-- Claim C2 (evaluation at the failing input): `s_box_lookup` masks the
nibble with `0b10000`, which is always zero on a 4-bit input, so the row index
of nibble `0b1011` is `0b01` (bit 0 only), not `0b11` (bits 3 and 0); the code
therefore returns `S0[1][1] = 2` and `S1[1][1] = 0`, while the row/column
grouping stated by the claim selects `S0[3][1] = 1` and `S1[3][1] = 1`. -/
theorem C2_sbox_row_failing_input :
    s_box_lookup 0b1011 S0 = 2 ∧ s_box_lookup 0b1011 S1 = 0 ∧
    (S0.getD 0b11 []).getD 0b01 0 = 1 ∧ (S1.getD 0b11 []).getD 0b01 0 = 1 ∧
    ((0b1011 &&& 0b10000) >>> 3) ||| (0b1011 &&& 1) = 0b01 := by decide

/-- Claim C3: the known-answer vector. Master key `0b1010000010` yields
`SK1 = 0b10100100` and `SK2 = 0b01000011`, and decrypting the ciphertext the
pipeline produces from plaintext `0b11010111` under those subkeys recovers the
plaintext. -/
theorem C3_known_answer :
    generate_subkeys 0b1010000010 = (0b10100100, 0b01000011) ∧
    decrypt (encrypt 0b11010111 0b10100100 0b01000011) 0b10100100 0b01000011
      = 0b11010111 := by decide

/-- Claim C4: for every 10-bit master key, SK1 is P8 applied to the result of
rotating each 5-bit half of the P10 output circularly and independently by 1,
and SK2 is P8 applied to the result of rotating each half of that LS1
intermediate by 2 further positions, where the half-rotation is the spec-side
`spec_shift_halves`. -/
theorem C4_key_schedule : ∀ K, K < 1024 →
    (generate_subkeys K).1 = p8 (spec_shift_halves (p10 K) 1) ∧
    (generate_subkeys K).2
      = p8 (spec_shift_halves (spec_shift_halves (p10 K) 1) 2) := by
  intro K hK
  have h10 := p10_lt K hK
  have h1 := (left_shift_spec _ h10).1
  have h2 := (left_shift_spec _ (spec_shift_halves_lt _ h10)).2
  rw [generate_subkeys_eq, h1, h2]
  exact ⟨rfl, rfl⟩

/-- Witness for C4 at the repository's demonstration key. -/
theorem C4_key_schedule_witness :
    0b1010000010 < 1024 ∧
    ((generate_subkeys 0b1010000010).1
        = p8 (spec_shift_halves (p10 0b1010000010) 1) ∧
      (generate_subkeys 0b1010000010).2
        = p8 (spec_shift_halves (spec_shift_halves (p10 0b1010000010) 1) 2)) :=
  ⟨by decide, C4_key_schedule 0b1010000010 (by decide)⟩

/-- Claim C5: for every 10-bit value and every shift amount `n` with
`0 < n < 5`, `left_shift` keeps the result within 10 bits and each 5-bit half
of the result is the independent circular rotation (within exactly 5 bits) of
the corresponding half of the input, so no bit crosses between halves. -/
theorem C5_left_shift_rotates_halves : ∀ key, key < 1024 → ∀ n, n < 5 → 0 < n →
    left_shift key n < 1024 ∧
    left_shift key n >>> 5 = spec_rotl5 (key >>> 5) n ∧
    left_shift key n &&& 31 = spec_rotl5 (key &&& 31) n :=
  left_shift_halves

/-- Witness for C5 at key `0b1010101010` and shift amount 3. -/
theorem C5_left_shift_rotates_halves_witness :
    0b1010101010 < 1024 ∧ 3 < 5 ∧ 0 < 3 ∧
    (left_shift 0b1010101010 3 < 1024 ∧
      left_shift 0b1010101010 3 >>> 5 = spec_rotl5 (0b1010101010 >>> 5) 3 ∧
      left_shift 0b1010101010 3 &&& 31 = spec_rotl5 (0b1010101010 &&& 31) 3) :=
  ⟨by decide, by decide, by decide,
    C5_left_shift_rotates_halves 0b1010101010 (by decide) 3 (by decide) (by decide)⟩

/-- Counterexample to claim C6 as stated: source bit position 2 — which is
neither position 4 nor position 1 — is also read twice by the expansion table,
so the expansion does not duplicate exactly the two positions 4 and 1. -/
theorem C6_counterexample :
    ep_table.count 2 = 2 ∧ ¬(2 = 4 ∨ 2 = 1) := by decide

/-- Claim C6 (amended): the 8-entry expansion table reads every one of the four
source bit positions exactly twice — positions 4 and 1 are duplicated, but so
are positions 2 and 3 — and the expansion is not a bijective permutation: it
widens 4 bits to 8, and, for example, no 4-bit input produces output 1. -/
theorem C6_expansion_duplication :
    ep_table.length = 8 ∧
    ep_table.count 1 = 2 ∧ ep_table.count 2 = 2 ∧
    ep_table.count 3 = 2 ∧ ep_table.count 4 = 2 ∧
    (∀ x, x < 16 → expansion_permutation x ≠ 1) := by decide

/-- Claim C7: for every 8-bit block and every 8-bit subkey, `fk` passes the low
(right) 4-bit half of the block through unchanged, and the high (left) half of
the result is the old left half XORed with `f_function` of the right half and
the subkey. -/
theorem C7_fk_frame : ∀ block, block < 256 → ∀ subkey, subkey < 256 →
    fk block subkey &&& 15 = block &&& 15 ∧
    fk block subkey >>> 4 = (block >>> 4) ^^^ f_function (block &&& 15) subkey := by
  intro block hb subkey _hk
  refine ⟨fk_low block subkey, ?_⟩
  rw [fk_high, shr4_and15 _ hb]

/-- Witness for C7 at the demonstration plaintext and subkey SK1. -/
theorem C7_fk_frame_witness :
    0b11010111 < 256 ∧ 0b10100100 < 256 ∧
    (fk 0b11010111 0b10100100 &&& 15 = 0b11010111 &&& 15 ∧
      fk 0b11010111 0b10100100 >>> 4
        = (0b11010111 >>> 4) ^^^ f_function (0b11010111 &&& 15) 0b10100100) :=
  ⟨by decide, by decide, C7_fk_frame 0b11010111 (by decide) 0b10100100 (by decide)⟩

/-- Claim C8: for every fixed pair of 8-bit subkeys, `encrypt` is a bijection
on the 256 possible 8-bit blocks: every 8-bit ciphertext is attained by exactly
one 8-bit plaintext. -/
theorem C8_encrypt_bijective : ∀ k1, k1 < 256 → ∀ k2, k2 < 256 → ∀ c, c < 256 →
    ∃! p, p < 256 ∧ encrypt p k1 k2 = c := by
  intro k1 _h1 k2 _h2 c hc
  refine ⟨decrypt c k1 k2, ⟨decrypt_lt c k1 k2, encrypt_decrypt c k1 k2 hc⟩, ?_⟩
  intro q hq
  have h := decrypt_encrypt q k1 k2 hq.1
  rw [hq.2] at h
  exact h.symm

/-- Witness for C8 at the demonstration subkeys and ciphertext 0. -/
theorem C8_encrypt_bijective_witness :
    0b10100100 < 256 ∧ 0b01000011 < 256 ∧ 0 < 256 ∧
    (∃! p, p < 256 ∧ encrypt p 0b10100100 0b01000011 = 0) :=
  ⟨by decide, by decide, by decide,
    C8_encrypt_bijective 0b10100100 (by decide) 0b01000011 (by decide) 0 (by decide)⟩

/-- Claim C9: every transform stays within its declared output width on all
valid inputs: `p10` and `left_shift` produce 10-bit values, `p8`,
`expansion_permutation`, `fk`, `sw`, `encrypt` and `decrypt` produce 8-bit
values, `p4` and `f_function` produce 4-bit values, and `s_box_lookup`
produces 2-bit values. -/
theorem C9_width_closure :
    (∀ key, key < 1024 → p10 key < 1024) ∧
    (∀ key, key < 1024 → ∀ n, n < 5 → 0 < n → left_shift key n < 1024) ∧
    (∀ key, key < 1024 → p8 key < 256) ∧
    (∀ x, x < 16 → expansion_permutation x < 256) ∧
    (∀ x k, x < 256 → k < 256 → fk x k < 256) ∧
    (∀ x, x < 256 → sw x < 256) ∧
    (∀ p k1 k2, p < 256 → k1 < 256 → k2 < 256 → encrypt p k1 k2 < 256) ∧
    (∀ c k1 k2, c < 256 → k1 < 256 → k2 < 256 → decrypt c k1 k2 < 256) ∧
    (∀ x, x < 16 → p4 x < 16) ∧
    (∀ x k, x < 16 → k < 256 → f_function x k < 16) ∧
    (∀ x, x < 16 → s_box_lookup x S0 < 4 ∧ s_box_lookup x S1 < 4) :=
  ⟨p10_lt,
    fun key hk n hn hn0 => (left_shift_halves key hk n hn hn0).1,
    p8_lt,
    by decide,
    fun x k _ _ => fk_lt x k,
    sw_lt,
    fun p k1 k2 _ _ _ => encrypt_lt p k1 k2,
    fun c k1 k2 _ _ _ => decrypt_lt c k1 k2,
    fun x _ => p4_lt x,
    fun x k _ _ => f_function_lt x k,
    by decide⟩

/-- Claim C10: `inverse_initial_permutation` is a two-sided inverse of
`initial_permutation` on 8-bit values. -/
theorem C10_ip_inverse : ∀ x, x < 256 →
    inverse_initial_permutation (initial_permutation x) = x ∧
    initial_permutation (inverse_initial_permutation x) = x :=
  fun x hx => ⟨ipinv_ip x hx, ip_ipinv x hx⟩

/-- Witness for C10 at the demonstration plaintext. -/
theorem C10_ip_inverse_witness :
    0b11010111 < 256 ∧
    (inverse_initial_permutation (initial_permutation 0b11010111) = 0b11010111 ∧
      initial_permutation (inverse_initial_permutation 0b11010111) = 0b11010111) :=
  ⟨by decide, C10_ip_inverse 0b11010111 (by decide)⟩

end SDES
